import Mathlib

/-!
# Verification of the GA tariff knowledge-graph pipeline

Shallow embedding of the three core modules of the repository
(`custom_ner.py`, `relation_extraction.py`, `knowledge_graph.py`)
and proofs of the frozen claims about them.

Texts are modelled as `List Char` with `Nat` character offsets, matching
Python's string indexing on the ASCII inputs the system processes.
-/

namespace GA

/-! ## Character and string helpers (ASCII models of Python `str` methods) -/

/-- ASCII lower-casing, modelling Python `str.lower()` on ASCII text. -/
def asciiLower (c : Char) : Char :=
  if 'A' ≤ c && c ≤ 'Z' then Char.ofNat (c.toNat + 32) else c

/-- ASCII upper-casing, modelling Python `str.upper()` on ASCII text. -/
def asciiUpper (c : Char) : Char :=
  if 'a' ≤ c && c ≤ 'z' then Char.ofNat (c.toNat - 32) else c

/-- ASCII letter test. -/
def isAsciiAlpha (c : Char) : Bool :=
  ('a' ≤ c && c ≤ 'z') || ('A' ≤ c && c ≤ 'Z')

/-- Python `str.isalnum()` restricted to ASCII (the system's inputs). -/
def pyIsAlnum (c : Char) : Bool :=
  isAsciiAlpha c || c.isDigit

/-- Python regex `\s` (ASCII): space, tab, newline, carriage return,
vertical tab, form feed. -/
def isPySpace (c : Char) : Bool :=
  c == ' ' || c == '\t' || c == '\n' || c == '\r' || c == '\x0b' || c == '\x0c'

/-- Python regex `\w` (ASCII): alphanumeric or underscore. -/
def isWordChar (c : Char) : Bool :=
  pyIsAlnum c || c == '_'

/-- Lower-case a whole string (Python `str.lower()`). -/
def pyLower (s : String) : String := String.mk (s.data.map asciiLower)

/-- Upper-case a whole string (Python `str.upper()`). -/
def pyUpper (s : String) : String := String.mk (s.data.map asciiUpper)

/-- Worker for `pyTitle`: the flag records whether the previous character
was a (cased) letter. -/
def titleGo : Bool → List Char → List Char
  | _, [] => []
  | prevAlpha, c :: rest =>
    if isAsciiAlpha c then
      (if prevAlpha then asciiLower c else asciiUpper c) :: titleGo true rest
    else
      c :: titleGo false rest

/-- Python `str.title()` on ASCII text: upper-case every letter that does
not follow a letter, lower-case the others. -/
def pyTitle (s : String) : String := String.mk (titleGo false s.data)

/-- Character at offset `i`, `none` when out of range. -/
def charAt (l : List Char) (i : Nat) : Option Char := (l.drop i).head?

/-- Is the character at offset `i` alphanumeric?  Out-of-range offsets are
not alphanumeric (used for word-boundary checks at text edges). -/
def alnumAt (l : List Char) (i : Nat) : Bool :=
  match charAt l i with
  | some c => pyIsAlnum c
  | none => false

/-- `needle` is a prefix of `hay`. -/
def prefixAt : List Char → List Char → Bool
  | [], _ => true
  | _ :: _, [] => false
  | a :: as, b :: bs => a == b && prefixAt as bs

/-- First offset at which `needle` occurs in `hay` (Python `str.find` from 0,
with `none` for `-1`). -/
def findSub : List Char → List Char → Option Nat
  | hay, needle =>
    if prefixAt needle hay then some 0
    else
      match hay with
      | [] => none
      | _ :: t => (findSub t needle).map (· + 1)

/-- Python `hay.find(needle, start)` (with `none` for `-1`). -/
def findFrom (hay needle : List Char) (start : Nat) : Option Nat :=
  (findSub (hay.drop start) needle).map (· + start)

/-- Python slice `l[a:b]` (half-open, clamped). -/
def slice (l : List Char) (a b : Nat) : List Char :=
  (l.drop a).take (b - a)

/-- Does `needle` occur anywhere in `hay`? -/
def containsSub (hay needle : List Char) : Bool :=
  (findSub hay needle).isSome

/-! ## Entity spans -/

/-- An entity candidate / result span: the `(entity_type, text, start, end)`
tuples of `custom_ner.py` (`stop` is the Python tuple's `end`). -/
structure Span where
  etype : String
  text : String
  start : Nat
  stop : Nat
deriving DecidableEq, Repr

/-! ## Entity dictionaries (`CustomNER._build_dictionaries`)

Transcribed from the source.  Python iterates each type's entry *set* in an
unspecified hash order; here entries are kept in source listing order, which
fixes one concrete order consistent with the source's semantics. -/

def entity_dictionaries : List (String × List String) :=
  [ ("PERSON",
      [ "trump", "donald trump", "biden", "joe biden", "xi jinping",
        "modi", "narendra modi", "trudeau", "justin trudeau",
        "macron", "emmanuel macron", "johnson", "boris johnson",
        "putin", "vladimir putin", "obama", "barack obama",
        "yellen", "janet yellen", "powell", "jerome powell" ]),
    ("LOCATION",
      [ "usa", "united states", "america", "us", "china", "india",
        "canada", "mexico", "japan", "germany", "france", "uk",
        "united kingdom", "britain", "russia", "australia", "brazil",
        "south korea", "italy", "spain", "eu", "european union",
        "asia", "europe", "north america", "africa", "middle east",
        "washington", "beijing", "new delhi", "london", "tokyo",
        "brussels", "moscow", "ottawa" ]),
    ("ORGANIZATION",
      [ "bbc", "cnn", "fox news", "reuters", "bloomberg", "wsj",
        "wall street journal", "new york times", "nyt", "washington post",
        "financial times", "economist", "al jazeera", "abc news",
        "nbc", "msnbc", "cnbc", "forbes", "politico",
        "wto", "world trade organization", "imf", "world bank",
        "un", "united nations", "nato", "oecd",
        "apple", "google", "amazon", "microsoft", "tesla", "walmart",
        "general motors", "gm", "ford", "boeing", "caterpillar",
        "harley davidson", "samsung", "huawei", "alibaba",
        "congress", "senate", "house", "white house", "treasury",
        "commerce department", "state department" ]),
    ("POLICY",
      [ "maga", "make america great again", "america first",
        "nafta", "usmca", "trade war", "section 232", "section 301",
        "reciprocal tariff", "national security tariff", "steel tariff",
        "aluminum tariff", "auto tariff", "trade deal", "trade agreement",
        "free trade", "protectionism", "tariff policy" ]),
    ("ECONOMIC_SECTOR",
      [ "agriculture", "manufacturing", "automotive", "steel", "aluminum",
        "technology", "tech", "energy", "oil", "gas", "solar",
        "semiconductor", "electronics", "textile", "aerospace",
        "pharmaceuticals", "chemicals" ]) ]

/-- The `while True` scan of `CustomNER._match_dictionary` for one dictionary
entry: repeatedly `find` the entry from `start`, skip occurrences whose
neighbouring characters are alphanumeric, and collect the `(pos, end)` pairs
of accepted occurrences.  `fuel` bounds the loop (each iteration strictly
advances `start`, so `length + 1` fuel suffices). -/
def dictScan (lower ent : List Char) : Nat → Nat → List (Nat × Nat)
  | _, 0 => []
  | start, fuel + 1 =>
    match findFrom lower ent start with
    | none => []
    | some pos =>
      if pos > 0 && alnumAt lower (pos - 1) then
        dictScan lower ent (pos + 1) fuel
      else if alnumAt lower (pos + ent.length) then
        dictScan lower ent (pos + 1) fuel
      else
        (pos, pos + ent.length) :: dictScan lower ent (pos + ent.length) fuel

/-- `CustomNER._match_dictionary`: case-insensitive dictionary lookup over the
lower-cased text, keeping occurrences bounded by non-alphanumeric characters,
reporting the original-case slice of the text. -/
def match_dictionary (text : List Char) : List Span :=
  let lower := text.map asciiLower
  entity_dictionaries.flatMap fun tyEntries =>
    tyEntries.2.flatMap fun ent =>
      (dictScan lower ent.data 0 (lower.length + 1)).map fun pe =>
        { etype := tyEntries.1
          text := String.mk (slice text pe.1 pe.2)
          start := pe.1
          stop := pe.2 }

/-! ## A small regular-expression engine

The Python modules use `re` patterns; each pattern is translated into the
`RE` syntax below, and `reRun` implements Python's backtracking search:
ordered alternation (left branch preferred), greedy `?`/`*`/`+`, word
boundaries and lookahead.  `fuel` only bounds `star` unfolding; it is
called with more fuel than any match over the text can consume. -/

inductive RE where
  | eps : RE
  | cls (p : Char → Bool) : RE
  | seq (a b : RE) : RE
  | alt (a b : RE) : RE
  | star (a : RE) : RE
  | look (a : RE) : RE
  | wb : RE

/-- Is the character at `i` a word character (`\w`)? Out of range: no. -/
def wordAt (tx : List Char) (i : Nat) : Bool :=
  match charAt tx i with
  | some c => isWordChar c
  | none => false

/-- Backtracking matcher in continuation style: try to match `r` at offset
`i` of `tx`, calling `k` with the offset after the match; alternatives are
tried in preference order, so the first overall success is returned, exactly
as Python's `re` backtracking does.  Recursion is structural on `fuel`
(decremented on every call so the definition unfolds computationally);
`reMatchAt` supplies fuel exceeding any possible backtracking depth for the
finitely many patterns used here, whose starred subpatterns all consume at
least one character per iteration. -/
def reRun (tx : List Char) : Nat → RE → Nat → (Nat → Option Nat) → Option Nat
  | 0, _, _, _ => none
  | _ + 1, .eps, i, k => k i
  | _ + 1, .cls p, i, k =>
    match charAt tx i with
    | some c => if p c then k (i + 1) else none
    | none => none
  | fuel + 1, .seq a b, i, k => reRun tx fuel a i (fun j => reRun tx fuel b j k)
  | fuel + 1, .alt a b, i, k =>
    match reRun tx fuel a i k with
    | some r => some r
    | none => reRun tx fuel b i k
  | fuel + 1, .star a, i, k =>
    match reRun tx fuel a i (fun j => reRun tx fuel (.star a) j k) with
    | some r => some r
    | none => k i
  | fuel + 1, .look a, i, k =>
    match reRun tx fuel a i (fun j => some j) with
    | some _ => k i
    | none => none
  | _ + 1, .wb, i, k =>
    let before := if i = 0 then false else wordAt tx (i - 1)
    if before != wordAt tx i then k i else none

/-- Syntactic size of a pattern, used to compute a sufficient fuel bound. -/
def reSize : RE → Nat
  | .eps => 1
  | .cls _ => 1
  | .seq a b => reSize a + reSize b + 1
  | .alt a b => reSize a + reSize b + 1
  | .star a => reSize a + 1
  | .look a => reSize a + 1
  | .wb => 1

/-- Match `r` at offset `i` (Python's attempt at one starting position),
returning the end offset of the preferred match. -/
def reMatchAt (tx : List Char) (r : RE) (i : Nat) : Option Nat :=
  reRun tx ((reSize r + 2) * (tx.length + 2)) r i some

/-- Scan of `re.finditer`: starting offsets ascending; after a match the scan
resumes at its end (or one further for an empty match). -/
def reFindIter (tx : List Char) (r : RE) : Nat → Nat → List (Nat × Nat)
  | _, 0 => []
  | i, fuel + 1 =>
    if i > tx.length then []
    else
      match reMatchAt tx r i with
      | some e => (i, e) :: reFindIter tx r (if i < e then e else i + 1) fuel
      | none => reFindIter tx r (i + 1) fuel

/-- All matches of `r` in `tx` as `(start, end)` pairs (`re.finditer`). -/
def reFindAll (tx : List Char) (r : RE) : List (Nat × Nat) :=
  reFindIter tx r 0 (tx.length + 1)

/-- `re.search` as a boolean: does `r` match at any starting offset? -/
def reSearchFrom (tx : List Char) (r : RE) : Nat → Nat → Bool
  | _, 0 => false
  | i, fuel + 1 =>
    if i > tx.length then false
    else
      match reMatchAt tx r i with
      | some _ => true
      | none => reSearchFrom tx r (i + 1) fuel

def reSearch (tx : List Char) (r : RE) : Bool :=
  reSearchFrom tx r 0 (tx.length + 1)

/-! ### Pattern construction helpers -/

/-- Literal character. -/
def chC (c : Char) : RE := .cls (fun x => x == c)

/-- Case-insensitive literal character (`re.IGNORECASE`). -/
def chCI (c : Char) : RE := .cls (fun x => asciiLower x == asciiLower c)

/-- Case-sensitive literal string. -/
def lit (s : String) : RE := (s.data.map chC).foldr .seq .eps

/-- Case-insensitive literal string. -/
def litCI (s : String) : RE := (s.data.map chCI).foldr .seq .eps

/-- Character class from a string of alternatives, case-insensitively. -/
def clsOfCI (s : String) : RE := .cls (fun x => s.data.any (fun c => asciiLower x == asciiLower c))

def reOpt (a : RE) : RE := .alt a .eps

def rePlus (a : RE) : RE := .seq a (.star a)

/-- Ordered alternation of a list of branches (first preferred). -/
def altL : List RE → RE
  | [] => .eps
  | [a] => a
  | a :: rest => .alt a (altL rest)

def seqL : List RE → RE
  | [] => .eps
  | [a] => a
  | a :: rest => .seq a (seqL rest)

def reDigit : RE := .cls Char.isDigit
def reWS : RE := .cls isPySpace

/-- `\s*` -/
def wsStar : RE := .star reWS
/-- `\s+` -/
def wsPlus : RE := rePlus reWS
/-- `\d+` -/
def digitsPlus : RE := rePlus reDigit

/-- `(?:\.\d+)?` -/
def optFrac : RE := reOpt (.seq (chC '.') digitsPlus)

/-- `(?:,\d{3})*` -/
def thousandsStar : RE := .star (seqL [chC ',', reDigit, reDigit, reDigit])

/-! ### The NER patterns (`CustomNER._build_patterns`) -/

/-- `\$\s*\d+(?:,\d{3})*(?:\.\d+)?\s*(?:billion|million|thousand|trillion|bn|mn|k|m|b)?`, IGNORECASE -/
def moneyPat1 : RE :=
  seqL [chC '$', wsStar, digitsPlus, thousandsStar, optFrac, wsStar,
        reOpt (altL [litCI "billion", litCI "million", litCI "thousand", litCI "trillion",
                     litCI "bn", litCI "mn", litCI "k", litCI "m", litCI "b"])]

/-- `\d+(?:,\d{3})*(?:\.\d+)?\s*(?:dollars|usd|yuan|euros?|pounds?)`, IGNORECASE -/
def moneyPat2 : RE :=
  seqL [digitsPlus, thousandsStar, optFrac, wsStar,
        altL [litCI "dollars", litCI "usd", litCI "yuan",
              .seq (litCI "euro") (reOpt (chCI 's')),
              .seq (litCI "pound") (reOpt (chCI 's'))]]

/-- `\d+(?:\.\d+)?\s*%` -/
def pctPat1 : RE := seqL [digitsPlus, optFrac, wsStar, chC '%']

/-- `\d+(?:\.\d+)?\s*percent`, IGNORECASE -/
def pctPat2 : RE := seqL [digitsPlus, optFrac, wsStar, litCI "percent"]

/-- `\b(?:january|...|december)\s+\d{1,2},?\s+\d{4}\b`, IGNORECASE -/
def datePat1 : RE :=
  seqL [.wb,
        altL [litCI "january", litCI "february", litCI "march", litCI "april",
              litCI "may", litCI "june", litCI "july", litCI "august",
              litCI "september", litCI "october", litCI "november", litCI "december"],
        wsPlus, reDigit, reOpt reDigit, reOpt (chC ','), wsPlus,
        reDigit, reDigit, reDigit, reDigit, .wb]

/-- Numeric date `\b\d{1,2}[X]\d{1,2}[X]\d{2,4}\b` where `[X]` is the
two-character class of slash and hyphen (spelled out here because the raw
class would open a nested Lean comment). -/
def datePat2 : RE :=
  seqL [.wb, reDigit, reOpt reDigit, .cls (fun c => c == '/' || c == '-'),
        reDigit, reOpt reDigit, .cls (fun c => c == '/' || c == '-'),
        reDigit, reDigit, reOpt (.seq reDigit (reOpt reDigit)), .wb]

/-- `\b(?:jan|feb|mar|apr|may|jun|jul|aug|sep|sept|oct|nov|dec)\.?\s+\d{1,2},?\s+\d{4}\b`, IGNORECASE -/
def datePat3 : RE :=
  seqL [.wb,
        altL [litCI "jan", litCI "feb", litCI "mar", litCI "apr", litCI "may",
              litCI "jun", litCI "jul", litCI "aug", litCI "sep", litCI "sept",
              litCI "oct", litCI "nov", litCI "dec"],
        reOpt (chC '.'), wsPlus, reDigit, reOpt reDigit, reOpt (chC ','), wsPlus,
        reDigit, reDigit, reDigit, reDigit, .wb]

/-- `\b\d{4}\b(?=\s+(?:tariff|trade|deal))`, IGNORECASE -/
def datePat4 : RE :=
  seqL [.wb, reDigit, reDigit, reDigit, reDigit, .wb,
        .look (seqL [wsPlus, altL [litCI "tariff", litCI "trade", litCI "deal"]])]

/-- `\d+(?:\.\d+)?\s*%\s*tariff`, IGNORECASE -/
def tariffPat1 : RE := seqL [digitsPlus, optFrac, wsStar, chC '%', wsStar, litCI "tariff"]

/-- `tariff\s+of\s+\d+(?:\.\d+)?\s*%`, IGNORECASE -/
def tariffPat2 : RE := seqL [litCI "tariff", wsPlus, litCI "of", wsPlus, digitsPlus, optFrac, wsStar, chC '%']

/-- `\b(?:steel|aluminum|cars?|automobile|solar panels?|washing machines?|electronics?|semiconductors?|chips?|soybeans?|pork|beef|wheat|corn)\b`, IGNORECASE -/
def productPat : RE :=
  seqL [.wb,
        altL [litCI "steel", litCI "aluminum", .seq (litCI "car") (reOpt (chCI 's')),
              litCI "automobile", .seq (litCI "solar panel") (reOpt (chCI 's')),
              .seq (litCI "washing machine") (reOpt (chCI 's')),
              .seq (litCI "electronic") (reOpt (chCI 's')),
              .seq (litCI "semiconductor") (reOpt (chCI 's')),
              .seq (litCI "chip") (reOpt (chCI 's')),
              .seq (litCI "soybean") (reOpt (chCI 's')),
              litCI "pork", litCI "beef", litCI "wheat", litCI "corn"],
        .wb]

/-- `CustomNER._build_patterns`: regex patterns per entity type, in the
source's dict insertion order. -/
def entity_patterns : List (String × List RE) :=
  [ ("MONEY", [moneyPat1, moneyPat2]),
    ("PERCENTAGE", [pctPat1, pctPat2]),
    ("DATE", [datePat1, datePat2, datePat3, datePat4]),
    ("TARIFF_RATE", [tariffPat1, tariffPat2]),
    ("PRODUCT", [productPat]) ]

/-- `CustomNER._match_patterns`: run every pattern of every type over the
text, collecting `(type, matched text, start, end)`. -/
def match_patterns (text : List Char) : List Span :=
  entity_patterns.flatMap fun tyPats =>
    tyPats.2.flatMap fun r =>
      (reFindAll text r).map fun se =>
        { etype := tyPats.1
          text := String.mk (slice text se.1 se.2)
          start := se.1
          stop := se.2 }

/-! ## Overlap resolution and normalization -/

/-- Stable insertion of `x` into `l`: `x` is placed before the first element
`y` with `lt x y`, hence after any element it ties with (stability, as in
Python's stable sort). -/
def insLt (lt : α → α → Bool) (x : α) : List α → List α
  | [] => [x]
  | y :: ys => if lt x y then x :: y :: ys else y :: insLt lt x ys

/-- Stable insertion sort with strict-order `lt` (equal elements keep their
original relative order, like Python `sorted`). -/
def isort (lt : α → α → Bool) (l : List α) : List α :=
  l.foldl (fun acc x => insLt lt x acc) []

/-- The sort key of `_resolve_overlaps`: ascending start, then descending
length — `a` strictly precedes `b` when `a` starts earlier, or they start
together and `a` is longer. -/
def spanLt (a b : Span) : Bool :=
  a.start < b.start || (a.start == b.start && b.stop - b.start < a.stop - a.start)

/-- The greedy sweep of `_resolve_overlaps`: accept a span whose start is at
or after the cursor `lastEnd`, then move the cursor to its end. -/
def sweep : Int → List Span → List Span
  | _, [] => []
  | lastEnd, e :: rest =>
    if lastEnd ≤ (e.start : Int) then e :: sweep (e.stop : Int) rest
    else sweep lastEnd rest

/-- `CustomNER._resolve_overlaps`: sort by `(start, -length)` and sweep with
the cursor initialised to `-1`. -/
def resolve_overlaps (l : List Span) : List Span :=
  if l.isEmpty then [] else sweep (-1) (isort spanLt l)

/-- Acronyms forced to upper case by `_capitalize_entity`. -/
def acronyms : List String :=
  ["USA", "UK", "EU", "UN", "WTO", "IMF", "NATO", "OECD",
   "CNN", "BBC", "ABC", "NBC", "NYT", "WSJ", "MSNBC", "CNBC"]

/-- `CustomNER._capitalize_entity`: numeric/structured types pass through;
name-like types are upper-cased when on the acronym allow-list (or usmca /
nafta), otherwise title-cased. -/
def capitalize_entity (text : String) (etype : String) : String :=
  if etype ∈ ["MONEY", "PERCENTAGE", "DATE", "TARIFF_RATE"] then text
  else if etype ∈ ["PERSON", "LOCATION", "ORGANIZATION"] then
    if pyUpper text ∈ acronyms then pyUpper text
    else if pyLower text ∈ ["usmca", "nafta"] then pyUpper text
    else pyTitle text
  else text

/-! ## The two public NER entry points -/

/-- A Python argument that is either a string or some non-string value
(the extractors check `isinstance(text, str)`). -/
inductive PyInput where
  | nonStr : PyInput
  | str (s : String) : PyInput

/-- `CustomNER.extract_entities_with_positions`: empty for non-string or
empty input; otherwise dictionary and pattern candidates are pooled, overlaps
resolved, and each surviving span's text normalised. -/
def extract_entities_with_positions : PyInput → List Span
  | .nonStr => []
  | .str s =>
    if s = "" then []
    else
      let cand := match_dictionary s.data ++ match_patterns s.data
      (resolve_overlaps cand).map fun sp =>
        { sp with text := capitalize_entity sp.text sp.etype }

/-- `CustomNER.extract_entities`: same pipeline, reporting only
`(entity_type, normalized_text)`. -/
def extract_entities : PyInput → List (String × String)
  | .nonStr => []
  | .str s =>
    if s = "" then []
    else
      let cand := match_dictionary s.data ++ match_patterns s.data
      (resolve_overlaps cand).map fun sp =>
        (sp.etype, capitalize_entity sp.text sp.etype)

/-! ## Relation extraction (`relation_extraction.py`) -/

abbrev Triple := String × String × String

/-- One rule of `RelationExtractor._build_relation_patterns`. -/
structure RelRule where
  subject_types : List String
  predicate : String
  object_types : List String
  connecting_words : List RE

/-- Verb stem with the optional `[sd]?` suffix. -/
def vbSD (s : String) : RE := .seq (litCI s) (reOpt (clsOfCI "sd"))

/-- Verb stem with the optional `[s]?` suffix. -/
def vbS (s : String) : RE := .seq (litCI s) (reOpt (chCI 's'))

/-- Verb stem with the optional `(?:es)?` suffix. -/
def vbES (s : String) : RE := .seq (litCI s) (reOpt (litCI "es"))

/-- `RelationExtractor._build_relation_patterns`, transcribed rule by rule
(all connecting-word patterns are compiled with `re.IGNORECASE`). -/
def relation_patterns : List RelRule :=
  [ { subject_types := ["PERSON", "ORGANIZATION", "LOCATION"]
      predicate := "ANNOUNCES"
      object_types := ["POLICY", "TARIFF_RATE", "MONEY", "PERCENTAGE"]
      connecting_words :=
        [vbSD "announce", vbSD "propose", vbSD "introduce",
         vbSD "implement", vbSD "impose", vbSD "declare"] },
    { subject_types := ["PERSON", "ORGANIZATION", "LOCATION"]
      predicate := "INCREASES"
      object_types := ["TARIFF_RATE", "PERCENTAGE", "MONEY"]
      connecting_words :=
        [vbSD "increase", vbSD "raise", vbSD "boost", vbSD "hike",
         litCI "up", vbSD "raise"] },
    { subject_types := ["PERSON", "ORGANIZATION", "LOCATION"]
      predicate := "DECREASES"
      object_types := ["TARIFF_RATE", "PERCENTAGE", "MONEY"]
      connecting_words :=
        [vbSD "decrease", vbSD "reduce", vbSD "lower", vbS "cut",
         vbES "slash", vbS "drop"] },
    { subject_types := ["ORGANIZATION"]
      predicate := "REPORTS"
      object_types := ["POLICY", "PERSON", "LOCATION", "ORGANIZATION"]
      connecting_words :=
        [vbSD "report", vbSD "state", vbSD "announce", vbS "say",
         vbSD "claim", vbSD "indicate"] },
    { subject_types := ["LOCATION", "ORGANIZATION"]
      predicate := "TRADES_WITH"
      object_types := ["LOCATION", "ORGANIZATION"]
      connecting_words :=
        [seqL [vbSD "trade", wsPlus, litCI "with"],
         seqL [litCI "trading", wsPlus, litCI "with"],
         seqL [vbSD "export", wsPlus, litCI "to"],
         seqL [vbSD "import", wsPlus, litCI "from"],
         seqL [vbS "deal", wsPlus, litCI "with"]] },
    { subject_types := ["POLICY", "TARIFF_RATE", "PERSON"]
      predicate := "IMPACTS"
      object_types := ["ECONOMIC_SECTOR", "LOCATION", "ORGANIZATION", "PRODUCT"]
      connecting_words :=
        [vbSD "impact", vbSD "affect", vbSD "influence", vbS "hurt",
         vbS "harm", vbSD "damage", vbS "benefit", vbS "help"] },
    { subject_types := ["PERSON", "ORGANIZATION", "LOCATION"]
      predicate := "SUPPORTS"
      object_types := ["POLICY", "PERSON"]
      connecting_words :=
        [vbS "support", vbS "back", vbSD "endorse", vbS "favor",
         vbSD "promote", vbS "champion"] },
    { subject_types := ["PERSON", "ORGANIZATION", "LOCATION"]
      predicate := "OPPOSES"
      object_types := ["POLICY", "PERSON"]
      connecting_words :=
        [vbSD "oppose", litCI "against", vbSD "reject", vbS "resist",
         vbS "fight", vbSD "criticize", vbS "condemn"] },
    { subject_types := ["PERSON", "LOCATION", "ORGANIZATION"]
      predicate := "NEGOTIATES"
      object_types := ["POLICY", "PERSON", "LOCATION"]
      connecting_words :=
        [vbSD "negotiate", vbES "discuss",
         seqL [vbS "talk", wsPlus, litCI "with"],
         seqL [vbS "meet", wsPlus, litCI "with"],
         seqL [litCI "negotiating", wsPlus, litCI "with"]] },
    { subject_types := ["POLICY", "TARIFF_RATE", "PERSON"]
      predicate := "TARGETS"
      object_types := ["LOCATION", "PRODUCT", "ECONOMIC_SECTOR", "ORGANIZATION"]
      connecting_words :=
        [vbS "target", seqL [vbS "aim", wsPlus, litCI "at"],
         seqL [vbES "focus", wsPlus, litCI "on"],
         seqL [litCI "directed", wsPlus, litCI "at"],
         litCI "against"] },
    { subject_types := ["PERSON"]
      predicate := "LEADS"
      object_types := ["ORGANIZATION", "LOCATION"]
      connecting_words :=
        [vbS "lead", vbS "head", vbS "run",
         seqL [litCI "president", wsPlus, litCI "of"],
         seqL [litCI "leader", wsPlus, litCI "of"],
         seqL [litCI "prime", wsPlus, litCI "minister", wsPlus, litCI "of"]] },
    { subject_types := ["LOCATION", "ORGANIZATION"]
      predicate := "EXPORTS"
      object_types := ["PRODUCT", "ECONOMIC_SECTOR", "MONEY"]
      connecting_words := [vbS "export", vbS "sell", vbS "ship", vbS "send"] },
    { subject_types := ["LOCATION", "ORGANIZATION"]
      predicate := "IMPORTS"
      object_types := ["PRODUCT", "ECONOMIC_SECTOR", "MONEY"]
      connecting_words := [vbS "import", vbS "buy", vbS "purchase", vbS "receive"] } ]

/-- `RelationExtractor._find_connecting_phrase` as the boolean the caller
uses: lower-case the substring between the two offsets and test each
connecting-word pattern until one matches. -/
def find_connecting (text : List Char) (a b : Nat) (ws : List RE) : Bool :=
  let middle := (slice text a b).map asciiLower
  ws.any (fun r => reSearch middle r)

/-- The dedup key of `extract_relations`:
`(subject.lower(), predicate, object.lower())`. -/
def tripleKey (t : Triple) : Triple := (pyLower t.1, t.2.1, pyLower t.2.2)

/-- The guarded append of `extract_relations`: append the triple and record
its key only when the key is unseen. -/
def pushTriple (st : List Triple × List Triple) (t : Triple) :
    List Triple × List Triple :=
  if tripleKey t ∈ st.2 then st else (st.1 ++ [t], st.2 ++ [tripleKey t])

/-- Innermost loop body of `extract_relations`: test one relation rule
against one (subject, object) span pair. -/
def relRuleStep (text : List Char) (isubj jobj : Nat × Span)
    (st3 : List Triple × List Triple) (rule : RelRule) :
    List Triple × List Triple :=
  if rule.subject_types.contains isubj.2.etype &&
     rule.object_types.contains jobj.2.etype then
    if find_connecting text isubj.2.stop jobj.2.start rule.connecting_words then
      pushTriple st3 (isubj.2.text, rule.predicate, jobj.2.text)
    else st3
  else st3

/-- Middle loop body of `extract_relations`: skip identical indices and
pairs whose subject does not start strictly before the object, otherwise try
every rule. -/
def relObjStep (text : List Char) (isubj : Nat × Span)
    (st2 : List Triple × List Triple) (jobj : Nat × Span) :
    List Triple × List Triple :=
  if isubj.1 == jobj.1 then st2
  else if jobj.2.start ≤ isubj.2.start then st2
  else relation_patterns.foldl (relRuleStep text isubj jobj) st2

/-- `RelationExtractor.extract_relations`: for every index pair of entity
spans with the subject strictly before the object, and every rule whose type
lists admit the pair, emit the triple when a connecting phrase occurs in the
text between them, deduplicating on `tripleKey`. -/
def extract_relations : PyInput → List Triple
  | .nonStr => []
  | .str text =>
    if text = "" then []
    else if (extract_entities_with_positions (.str text)).length < 2 then []
    else
      (((extract_entities_with_positions (.str text)).enum).foldl
        (fun st1 isubj =>
          ((extract_entities_with_positions (.str text)).enum).foldl
            (relObjStep text.data isubj) st1)
        ([], [])).1

/-- The type-pair table of `RelationExtractor._infer_relation`. -/
def type_relations : List ((String × String) × String) :=
  [ (("PERSON", "POLICY"), "ASSOCIATED_WITH"),
    (("PERSON", "LOCATION"), "ASSOCIATED_WITH"),
    (("PERSON", "ORGANIZATION"), "ASSOCIATED_WITH"),
    (("LOCATION", "LOCATION"), "RELATED_TO"),
    (("LOCATION", "POLICY"), "RELATED_TO"),
    (("LOCATION", "ECONOMIC_SECTOR"), "HAS_SECTOR"),
    (("LOCATION", "PRODUCT"), "PRODUCES"),
    (("ORGANIZATION", "POLICY"), "RELATED_TO"),
    (("ORGANIZATION", "LOCATION"), "OPERATES_IN"),
    (("POLICY", "ECONOMIC_SECTOR"), "AFFECTS"),
    (("POLICY", "PRODUCT"), "AFFECTS"),
    (("TARIFF_RATE", "PRODUCT"), "APPLIES_TO"),
    (("TARIFF_RATE", "LOCATION"), "APPLIES_TO"),
    (("PERCENTAGE", "PRODUCT"), "APPLIES_TO"),
    (("MONEY", "LOCATION"), "RELATED_TO") ]

/-- `RelationExtractor._infer_relation`: table lookup with default
`MENTIONED_WITH`. -/
def infer_relation (t1 t2 : String) : String :=
  match type_relations.lookup (t1, t2) with
  | some p => p
  | none => "MENTIONED_WITH"

/-- The ordered pair key of `extract_simple_triples`:
`(text1.lower(), text2.lower())` in index order. -/
def pairKey (t1 t2 : String) : String × String := (pyLower t1, pyLower t2)

/-- Inner loop body of `extract_simple_triples`: for an index pair `i < j`,
skip when the ordered lower-cased text pair was seen, otherwise infer the
predicate from the type pair and (the predicate being a non-empty, hence
truthy, string) emit the triple and record the pair. -/
def simpleStep (ie : Nat × (String × String))
    (st2 : List Triple × List (String × String)) (je : Nat × (String × String)) :
    List Triple × List (String × String) :=
  if je.1 ≤ ie.1 then st2
  else if pairKey ie.2.2 je.2.2 ∈ st2.2 then st2
  else if infer_relation ie.2.1 je.2.1 ≠ "" then
    (st2.1 ++ [(ie.2.2, infer_relation ie.2.1 je.2.1, je.2.2)],
     st2.2 ++ [pairKey ie.2.2 je.2.2])
  else st2

/-- `RelationExtractor.extract_simple_triples`. -/
def extract_simple_triples : PyInput → List Triple
  | .nonStr => []
  | .str text =>
    if text = "" then []
    else if (extract_entities (.str text)).length < 2 then []
    else
      (((extract_entities (.str text)).enum).foldl
        (fun st1 ie => ((extract_entities (.str text)).enum).foldl (simpleStep ie) st1)
        ([], [])).1

/-! ## Knowledge graph store (`knowledge_graph.py`)

The `networkx.MultiDiGraph` is modelled by its observable state: the ordered
node list with each node's attribute dict (here just `entity_type`), and the
ordered edge list with one record per `add_edge` call.  Per the networkx
documentation, `add_node` on an existing node *updates* its attributes (and
keeps its position), and `add_edge` always appends a new parallel edge. -/

/-- Insert-or-update for an ordered association list: an existing key keeps
its position and gets the new value (Python dict / networkx attribute
semantics); a new key is appended. -/
def updateAssoc (l : List (String × String)) (k v : String) :
    List (String × String) :=
  match l with
  | [] => [(k, v)]
  | kv :: rest =>
    if kv.1 == k then (k, v) :: rest else kv :: updateAssoc rest k v

/-- Ordered association list lookup (Python `dict.get`, `None` as `none`). -/
def lookupAssoc (l : List (String × String)) (k : String) : Option String :=
  match l with
  | [] => none
  | kv :: rest => if kv.1 == k then some kv.2 else lookupAssoc rest k

/-- Python truthiness of an optional string (`None` and `""` are falsy). -/
def truthy : Option String → Bool
  | none => false
  | some s => s != ""

/-- Python `subject_type or 'UNKNOWN'`. -/
def orUnknown : Option String → String
  | none => "UNKNOWN"
  | some s => if s = "" then "UNKNOWN" else s

/-- The `KnowledgeGraph` state: graph nodes (name ↦ `entity_type`
attribute), graph edges `(u, v, relation)`, the ordered triple log, and the
separate `entity_types` map. -/
structure KG where
  nodes : List (String × String)
  edges : List (String × String × String)
  triples : List Triple
  entity_types : List (String × String)
deriving DecidableEq, Repr

def emptyKG : KG := ⟨[], [], [], []⟩

/-- `KnowledgeGraph.add_triple`: add/update both endpoint nodes (attribute
`entity_type` set to the given type or `'UNKNOWN'`), append the edge and the
triple, and update `entity_types` for each non-null (truthy) type argument. -/
def add_triple (g : KG) (s p o : String) (st ot : Option String) : KG :=
  let nodes1 := updateAssoc g.nodes s (orUnknown st)
  let nodes2 := updateAssoc nodes1 o (orUnknown ot)
  let et1 := if truthy st then updateAssoc g.entity_types s (st.getD "") else g.entity_types
  let et2 := if truthy ot then updateAssoc et1 o (ot.getD "") else et1
  { nodes := nodes2
    edges := g.edges ++ [(s, o, p)]
    triples := g.triples ++ [(s, p, o)]
    entity_types := et2 }

/-- A whole run of `add_triple` calls against a fresh store (each call is
`(subject, predicate, object, subject_type, object_type)`). -/
def applyCalls (calls : List (String × String × String × Option String × Option String)) : KG :=
  calls.foldl (fun g c => add_triple g c.1 c.2.1 c.2.2.1 c.2.2.2.1 c.2.2.2.2) emptyKG

/-! ### Centrality metrics and `get_top_entities` -/

/-- Multigraph degree of a node: incident edge ends (a self-loop counts
twice), parallel edges each counted. -/
def degreeOf (g : KG) (n : String) : Nat :=
  (g.edges.filter (fun e => e.1 == n)).length +
  (g.edges.filter (fun e => e.2.1 == n)).length

def inDegreeOf (g : KG) (n : String) : Nat :=
  (g.edges.filter (fun e => e.2.1 == n)).length

def outDegreeOf (g : KG) (n : String) : Nat :=
  (g.edges.filter (fun e => e.1 == n)).length

/-- `dict(self.graph.degree())` in node insertion order, as rational scores. -/
def degreeScores (g : KG) : List (String × Rat) :=
  g.nodes.map (fun nv => (nv.1, (degreeOf g nv.1 : Rat)))

def inDegreeScores (g : KG) : List (String × Rat) :=
  g.nodes.map (fun nv => (nv.1, (inDegreeOf g nv.1 : Rat)))

def outDegreeScores (g : KG) : List (String × Rat) :=
  g.nodes.map (fun nv => (nv.1, (outDegreeOf g nv.1 : Rat)))

/-- `sorted(scores.items(), key=lambda x: x[1], reverse=True)[:n]` — a stable
descending sort by score, truncated to `n`. -/
def topSort (scores : List (String × Rat)) (n : Nat) : List (String × Rat) :=
  (isort (fun a b => b.2 < a.2) scores).take n

/-- `KnowledgeGraph.get_top_entities`.  The `pagerank` and `betweenness`
branches call the external `networkx` library; those two score functions are
taken as parameters, so every theorem below holds for any implementation of
them.  An empty graph short-circuits to `[]` before the metric is examined;
an unrecognised metric raises `ValueError`, modelled as `Except.error`. -/
def get_top_entities (prF btF : KG → List (String × Rat)) (g : KG)
    (n : Nat) (metric : String) : Except String (List (String × Rat)) :=
  if g.nodes.length = 0 then .ok []
  else if metric = "degree" then .ok (topSort (degreeScores g) n)
  else if metric = "in_degree" then .ok (topSort (inDegreeScores g) n)
  else if metric = "out_degree" then .ok (topSort (outDegreeScores g) n)
  else if metric = "pagerank" then .ok (topSort (prF g) n)
  else if metric = "betweenness" then .ok (topSort (btF g) n)
  else .error ("Unknown metric: " ++ metric)

/-! ### `get_statistics` -/

/-- `KnowledgeGraph.get_all_relations`: the set of relation labels on the
edges (only its size is observed by `get_statistics`, so the set is modelled
as the list of distinct labels). -/
def get_all_relations (g : KG) : List String :=
  (g.edges.map (fun e => e.2.2)).dedup

/-- `networkx.density` for a directed graph: `m / (n*(n-1))`, and `0` when
there are no edges or at most one node (edges counted with multiplicity). -/
def nx_density (g : KG) : Rat :=
  if g.edges.length = 0 ∨ g.nodes.length ≤ 1 then 0
  else (g.edges.length : Rat) / ((g.nodes.length : Rat) * ((g.nodes.length : Rat) - 1))

/-- `networkx.is_weakly_connected`: per the networkx source and
documentation it raises `NetworkXPointlessConcept` — message `Connectivity
is undefined for the null graph.` — when the graph has no nodes; otherwise it
returns the library's connectivity verdict, taken here as the parameter
`wccF` so every theorem holds for any implementation of it. -/
def nx_is_weakly_connected (wccF : KG → Bool) (g : KG) : Except String Bool :=
  if g.nodes.length = 0 then
    .error "Connectivity is undefined for the null graph."
  else .ok (wccF g)

/-- Sum of multigraph degrees over all nodes. -/
def degreeTotal (g : KG) : Nat := (g.nodes.map (fun nv => degreeOf g nv.1)).sum

def inDegreeTotal (g : KG) : Nat := (g.nodes.map (fun nv => inDegreeOf g nv.1)).sum

def outDegreeTotal (g : KG) : Nat := (g.nodes.map (fun nv => outDegreeOf g nv.1)).sum

/-- Largest multigraph degree (`max(degrees.values())`). -/
def maxDegree (g : KG) : Nat := (g.nodes.map (fun nv => degreeOf g nv.1)).foldr max 0

/-- The statistics record assembled by `get_statistics`; the component and
degree entries are only present when the graph has nodes, mirroring the two
`if number_of_nodes() > 0` blocks of the source. -/
structure GraphStats where
  num_nodes : Nat
  num_edges : Nat
  num_triples : Nat
  num_relations : Nat
  density : Rat
  is_connected : Bool
  num_weakly_connected_components : Option Nat
  largest_component_size : Option Nat
  avg_degree : Option Rat
  max_degree : Option Nat
  avg_in_degree : Option Rat
  avg_out_degree : Option Rat
deriving Repr

/-- `KnowledgeGraph.get_statistics`.  The entries are evaluated as in the
source's dict literal: `nx.is_weakly_connected` is called unconditionally,
so on a 0-node store the `NetworkXPointlessConcept` it raises propagates out
of `get_statistics` and no record is produced.  The library's component
counts (`ncompF`, `largestF`) and connectivity verdict (`wccF`) are
parameters; the counts the store computes itself are exact. -/
def get_statistics (wccF : KG → Bool) (ncompF largestF : KG → Nat) (g : KG) :
    Except String GraphStats :=
  match nx_is_weakly_connected wccF g with
  | .error e => .error e
  | .ok conn =>
    .ok { num_nodes := g.nodes.length
          num_edges := g.edges.length
          num_triples := g.triples.length
          num_relations := (get_all_relations g).length
          density := nx_density g
          is_connected := conn
          num_weakly_connected_components :=
            if 0 < g.nodes.length then some (ncompF g) else none
          largest_component_size :=
            if 0 < g.nodes.length then some (largestF g) else none
          avg_degree :=
            if 0 < g.nodes.length then
              some ((degreeTotal g : Rat) / (g.nodes.length : Rat))
            else none
          max_degree := if 0 < g.nodes.length then some (maxDegree g) else none
          avg_in_degree :=
            if 0 < g.nodes.length then
              some ((inDegreeTotal g : Rat) / (g.nodes.length : Rat))
            else none
          avg_out_degree :=
            if 0 < g.nodes.length then
              some ((outDegreeTotal g : Rat) / (g.nodes.length : Rat))
            else none }

/-! ### Persistence (`save_graph` / `load_graph`)

`save_graph` writes a JSON record with exactly the triple log and the
`entity_types` map; `load_graph` installs both into the store and then
rebuilds the graph with a `for` loop over `self.triples` — the very list
`add_triple` appends to.  Python's `for` reads the live list by increasing
index, which the `LoadState` below makes explicit. -/

/-- The persisted record: ordered triple list plus entity-type map. -/
structure SavedData where
  triples : List Triple
  entity_types : List (String × String)
deriving DecidableEq, Repr

/-- `KnowledgeGraph.save_graph` (minus the file write): the record dumped. -/
def save_graph (g : KG) : SavedData := ⟨g.triples, g.entity_types⟩

/-- The state of `load_graph`'s rebuild loop: the store (whose `triples`
field is the list being iterated) and the `for` loop's current index. -/
structure LoadState where
  g : KG
  idx : Nat
deriving DecidableEq, Repr

/-- `load_graph` up to the start of its loop: triples and entity types
installed, the graph reset to a fresh `MultiDiGraph`. -/
def loadInit (d : SavedData) : LoadState :=
  ⟨{ nodes := [], edges := [], triples := d.triples, entity_types := d.entity_types }, 0⟩

/-- One iteration of `load_graph`'s `for` loop: read the triple at the
current index of the *live* list (`none` when the index has reached the end,
i.e. the loop exits), call `add_triple` with the types looked up in
`entity_types`, and advance the index. -/
def loadStep (st : LoadState) : Option LoadState :=
  match (st.g.triples.drop st.idx).head? with
  | none => none
  | some t =>
    some ⟨add_triple st.g t.1 t.2.1 t.2.2
            (lookupAssoc st.g.entity_types t.1)
            (lookupAssoc st.g.entity_types t.2.2),
          st.idx + 1⟩

/-- Run up to `n` iterations of the loop; `none` means the loop exited
(finished) within `n` iterations, `some st` that it is still running with
state `st`. -/
def loadIter : Nat → LoadState → Option LoadState
  | 0, st => some st
  | n + 1, st =>
    match loadStep st with
    | some st' => loadIter n st'
    | none => none

/-! ## Helper lemmas -/

theorem lookupAssoc_updateAssoc_self (l : List (String × String)) (k v : String) :
    lookupAssoc (updateAssoc l k v) k = some v := by
  induction l with
  | nil => simp [updateAssoc, lookupAssoc]
  | cons kv rest ih =>
    by_cases h : kv.1 == k
    · simp [updateAssoc, lookupAssoc, h]
    · simp only [updateAssoc, lookupAssoc, h, if_false, Bool.false_eq_true, ite_false]
      exact ih

theorem add_triple_triples (g : KG) (s p o : String) (st ot : Option String) :
    (add_triple g s p o st ot).triples = g.triples ++ [(s, p, o)] := rfl

theorem add_triple_edges (g : KG) (s p o : String) (st ot : Option String) :
    (add_triple g s p o st ot).edges = g.edges ++ [(s, o, p)] := rfl

/-- Both length counters grow by exactly one per `add_triple` call, from any
starting store. -/
theorem foldl_add_triple_lengths
    (calls : List (String × String × String × Option String × Option String)) :
    ∀ g : KG,
      (calls.foldl (fun g c => add_triple g c.1 c.2.1 c.2.2.1 c.2.2.2.1 c.2.2.2.2) g).triples.length
        = g.triples.length + calls.length ∧
      (calls.foldl (fun g c => add_triple g c.1 c.2.1 c.2.2.1 c.2.2.2.1 c.2.2.2.2) g).edges.length
        = g.edges.length + calls.length := by
  induction calls with
  | nil => intro g; simp
  | cons c rest ih =>
    intro g
    have h := ih (add_triple g c.1 c.2.1 c.2.2.1 c.2.2.2.1 c.2.2.2.2)
    simp only [List.foldl_cons]
    constructor
    · rw [h.1, add_triple_triples]
      simp [Nat.add_assoc, Nat.add_comm 1 rest.length]
    · rw [h.2, add_triple_edges]
      simp [Nat.add_assoc, Nat.add_comm 1 rest.length]

/-! ## C9 — triple log and edge count track `add_triple` invocations -/

/-- C9: after any sequence of `add_triple` calls on a fresh store, the triple
log length and the edge count both equal the number of invocations; in
particular `add_triple("A","R","B")` twice gives 2 edges and 2 logged triples
while the node count stays at 2. -/
theorem add_triple_counts :
    (∀ calls : List (String × String × String × Option String × Option String),
        (applyCalls calls).triples.length = calls.length ∧
        (applyCalls calls).edges.length = calls.length) ∧
    (add_triple (add_triple emptyKG "A" "R" "B" none none) "A" "R" "B" none none).edges.length = 2 ∧
    (add_triple (add_triple emptyKG "A" "R" "B" none none) "A" "R" "B" none none).triples.length = 2 ∧
    (add_triple (add_triple emptyKG "A" "R" "B" none none) "A" "R" "B" none none).nodes.length = 2 := by
  refine ⟨fun calls => ?_, by decide, by decide, by decide⟩
  have h := foldl_add_triple_lengths calls emptyKG
  simpa [applyCalls, emptyKG] using h

/-! ## C2 — entity-type semantics of `add_triple`

The claim says a typeless `add_triple` leaves a previously set node
`entity_type` unchanged.  That is true of the separate `entity_types` map but
false of the graph node attribute: `networkx.add_node` updates the attributes
of an existing node, so the attribute is overwritten with `'UNKNOWN'`. -/

/-- C2 counterexample: node `A` is typed `PERSON`, then named by a typeless
`add_triple`; its graph `entity_type` attribute becomes `UNKNOWN`, not the
previously set `PERSON` the claim requires. -/
theorem typeless_call_downgrades_node_attr :
    lookupAssoc (add_triple (add_triple emptyKG "A" "R" "B" (some "PERSON") none)
        "A" "S" "C" none none).nodes "A" = some "UNKNOWN" ∧
    ¬ lookupAssoc (add_triple (add_triple emptyKG "A" "R" "B" (some "PERSON") none)
        "A" "S" "C" none none).nodes "A" = some "PERSON" := by
  constructor
  · rfl
  · intro h
    simp [lookupAssoc, updateAssoc, add_triple, emptyKG, truthy, orUnknown] at h

/-- C2 amended: a typeless `add_triple` leaves the `entity_types` map
unchanged but resets the graph node attribute of the nodes it names to
`UNKNOWN`; a non-empty type argument follows last-writer-wins in the map. -/
theorem add_triple_type_semantics (g : KG) (s p o : String) :
    (add_triple g s p o none none).entity_types = g.entity_types ∧
    lookupAssoc (add_triple g s p o none none).nodes o = some "UNKNOWN" ∧
    (∀ t : String, t ≠ "" →
      lookupAssoc (add_triple g s p o (some t) none).entity_types s = some t) := by
  refine ⟨rfl, ?_, ?_⟩
  · exact lookupAssoc_updateAssoc_self _ o "UNKNOWN"
  · intro t ht
    simp [add_triple, truthy, bne_iff_ne, ht, lookupAssoc_updateAssoc_self]

theorem add_triple_type_semantics_witness :
    "PERSON" ≠ "" ∧
    lookupAssoc (add_triple emptyKG "A" "R" "B" (some "PERSON") none).entity_types "A"
      = some "PERSON" :=
  ⟨by decide, (add_triple_type_semantics emptyKG "A" "R" "B").2.2 "PERSON" (by decide)⟩

/-! ## C4 — unknown metric: error only on a non-empty graph, and not the
core's only hard error

`get_top_entities` returns `[]` for the empty graph *before* inspecting the
metric, so an unknown metric does not raise there; on any non-empty graph it
raises `ValueError`.  The claim's second conjunct — that this `ValueError`
is the only hard error the core raises — also fails: `get_statistics` calls
`nx.is_weakly_connected` unconditionally, and on a 0-node store that raises
`NetworkXPointlessConcept`. -/

/-- C4 counterexample: on the empty graph the unknown metric `"bogus"`
returns `[]` instead of raising the invalid-argument error the claim
requires for every graph store state; and on the very same store
`get_statistics` raises `NetworkXPointlessConcept`, so the invalid-argument
error is not the only hard error the core raises. -/
theorem unknown_metric_claim_counterexample :
    get_top_entities (fun _ => []) (fun _ => []) emptyKG 10 "bogus" = Except.ok [] ∧
    get_statistics (fun _ => false) (fun _ => 0) (fun _ => 0) emptyKG
      = Except.error "Connectivity is undefined for the null graph." :=
  ⟨rfl, rfl⟩

/-- C4 amended: on every *non-empty* graph store, any metric outside the five
supported names makes `get_top_entities` raise the invalid-argument error
(for arbitrary pagerank/betweenness implementations); and that error is not
the only hard error the core raises — `get_statistics` on the empty store
propagates `NetworkXPointlessConcept` from `nx.is_weakly_connected`, for
arbitrary implementations of the library's connectivity and component
functions. -/
theorem unknown_metric_error :
    (∀ (prF btF : KG → List (String × Rat)) (g : KG) (n : Nat) (metric : String),
        g.nodes.length ≠ 0 →
        metric ∉ ["degree", "in_degree", "out_degree", "pagerank", "betweenness"] →
        get_top_entities prF btF g n metric = .error ("Unknown metric: " ++ metric)) ∧
    (∀ (wccF : KG → Bool) (ncompF largestF : KG → Nat),
        get_statistics wccF ncompF largestF emptyKG
          = .error "Connectivity is undefined for the null graph.") := by
  constructor
  · intro prF btF g n metric hg hm
    simp only [List.mem_cons, List.not_mem_nil, or_false, not_or] at hm
    obtain ⟨h1, h2, h3, h4, h5⟩ := hm
    simp [get_top_entities, hg, h1, h2, h3, h4, h5]
  · intro wccF ncompF largestF
    rfl

theorem unknown_metric_error_witness :
    ((add_triple emptyKG "A" "R" "B" none none).nodes.length ≠ 0 ∧
      "bogus" ∉ ["degree", "in_degree", "out_degree", "pagerank", "betweenness"]) ∧
    get_top_entities (fun _ => []) (fun _ => [])
        (add_triple emptyKG "A" "R" "B" none none) 3 "bogus"
      = .error ("Unknown metric: " ++ "bogus") ∧
    get_statistics (fun _ => false) (fun _ => 0) (fun _ => 0) emptyKG
      = .error "Connectivity is undefined for the null graph." :=
  ⟨⟨by decide, by decide⟩,
    unknown_metric_error.1 (fun _ => []) (fun _ => [])
      (add_triple emptyKG "A" "R" "B" none none) 3 "bogus" (by decide) (by decide),
    unknown_metric_error.2 (fun _ => false) (fun _ => 0) (fun _ => 0)⟩

/-! ## C1 — `save_graph` / `load_graph` round trip

`load_graph` installs the saved triple list as `self.triples` and then
iterates `for ... in self.triples` while `add_triple` appends to that same
list: the loop index can never catch up with the growing list, so for any
non-empty saved log the rebuild loop never terminates and no round-tripped
store is ever produced. -/

theorem loadStep_progress (st : LoadState) (k : Nat) (hk : 0 < k)
    (h : st.g.triples.length = st.idx + k) :
    ∃ st', loadStep st = some st' ∧ st'.g.triples.length = st'.idx + k := by
  cases hd : (st.g.triples.drop st.idx).head? with
  | none =>
    exfalso
    have hnil : st.g.triples.drop st.idx = [] := by
      cases hdrop : st.g.triples.drop st.idx with
      | nil => rfl
      | cons a t => rw [hdrop] at hd; simp at hd
    have hlen : st.g.triples.length - st.idx = 0 := by
      have := congrArg List.length hnil
      simpa using this
    omega
  | some t =>
    refine ⟨_, by rw [loadStep, hd], ?_⟩
    simp only [add_triple_triples, List.length_append, List.length_singleton]
    omega

theorem loadIter_isSome (n : Nat) :
    ∀ (st : LoadState) (k : Nat), 0 < k → st.g.triples.length = st.idx + k →
      (loadIter n st).isSome = true := by
  induction n with
  | zero => intro st k _ _; rfl
  | succ n ih =>
    intro st k hk h
    obtain ⟨st', hstep, hinv⟩ := loadStep_progress st k hk h
    rw [loadIter, hstep]
    exact ih st' k hk hinv

/-- C1 (code bug): for every store with a non-empty triple log, loading the
saved record back never finishes — after any number `n` of loop iterations
the rebuild loop of `load_graph` is still running, so the round trip cannot
reproduce the original log. -/
theorem load_graph_never_terminates (g : KG) (hne : g.triples ≠ []) (n : Nat) :
    (loadIter n (loadInit (save_graph g))).isSome = true := by
  apply loadIter_isSome n (loadInit (save_graph g)) g.triples.length
  · exact List.length_pos.mpr hne
  · simp [loadInit, save_graph]

theorem load_graph_never_terminates_witness :
    (add_triple emptyKG "A" "R" "B" none none).triples ≠ [] ∧
    (loadIter 5 (loadInit (save_graph (add_triple emptyKG "A" "R" "B" none none)))).isSome = true :=
  ⟨by decide, load_graph_never_terminates (add_triple emptyKG "A" "R" "B" none none) (by decide) 5⟩

/-! ## C3 — resolved spans never overlap -/

/-- Two spans overlap when some character offset lies in both half-open
intervals. -/
def Overlap (a b : Span) : Prop :=
  ∃ k : Nat, a.start ≤ k ∧ k < a.stop ∧ b.start ≤ k ∧ k < b.stop

theorem mem_insLt {lt : α → α → Bool} {x y : α} :
    ∀ {l : List α}, y ∈ insLt lt x l → y = x ∨ y ∈ l := by
  intro l
  induction l with
  | nil =>
    intro h
    rw [insLt] at h
    exact Or.inl (List.mem_singleton.mp h)
  | cons a t ih =>
    intro h
    by_cases hc : lt x a
    · rw [insLt, if_pos hc] at h
      rcases List.mem_cons.mp h with h | h
      · exact Or.inl h
      · exact Or.inr h
    · rw [insLt, if_neg hc] at h
      rcases List.mem_cons.mp h with h | h
      · exact Or.inr (List.mem_cons.mpr (Or.inl h))
      · rcases ih h with h' | h'
        · exact Or.inl h'
        · exact Or.inr (List.mem_cons_of_mem _ h')

theorem spanLt_true_start_le {a b : Span} (h : spanLt a b = true) :
    a.start ≤ b.start := by
  simp only [spanLt, Bool.or_eq_true, decide_eq_true_eq, Bool.and_eq_true,
    beq_iff_eq] at h
  rcases h with h | ⟨h, _⟩ <;> omega

theorem spanLt_false_start_le {a b : Span} (h : spanLt a b = false) :
    b.start ≤ a.start := by
  by_contra hgt
  push_neg at hgt
  have : spanLt a b = true := by
    simp [spanLt, hgt]
  simp [this] at h

/-- The relation "starts no later". -/
def SLE (a b : Span) : Prop := a.start ≤ b.start

theorem pairwise_SLE_insLt {x : Span} :
    ∀ {l : List Span}, l.Pairwise SLE → (insLt spanLt x l).Pairwise SLE := by
  intro l
  induction l with
  | nil => intro _; simp [insLt, List.Pairwise]
  | cons a t ih =>
    intro hp
    rcases List.pairwise_cons.mp hp with ⟨ha, ht⟩
    by_cases hc : spanLt x a
    · rw [insLt, if_pos hc]
      refine List.pairwise_cons.mpr ⟨?_, hp⟩
      intro b hb
      rcases List.mem_cons.mp hb with rfl | hb
      · exact spanLt_true_start_le hc
      · exact Nat.le_trans (spanLt_true_start_le hc) (ha _ hb)
    · rw [insLt, if_neg hc]
      refine List.pairwise_cons.mpr ⟨?_, ih ht⟩
      intro b hb
      rcases mem_insLt hb with rfl | hb
      · exact spanLt_false_start_le (Bool.eq_false_iff.mpr hc)
      · exact ha _ hb

theorem pairwise_SLE_isort (l : List Span) : (isort spanLt l).Pairwise SLE := by
  suffices h : ∀ acc : List Span, acc.Pairwise SLE →
      (l.foldl (fun acc x => insLt spanLt x acc) acc).Pairwise SLE by
    exact h [] (by simp)
  induction l with
  | nil => intro acc hacc; simpa using hacc
  | cons a t ih =>
    intro acc hacc
    exact ih _ (pairwise_SLE_insLt hacc)

theorem mem_sweep {x : Span} :
    ∀ {le : Int} {l : List Span}, x ∈ sweep le l → x ∈ l := by
  intro le l
  induction l generalizing le with
  | nil => intro h; rw [sweep] at h; exact absurd h (List.not_mem_nil x)
  | cons a t ih =>
    intro h
    by_cases hc : le ≤ (a.start : Int)
    · rw [sweep, if_pos hc] at h
      rcases List.mem_cons.mp h with rfl | h
      · exact List.mem_cons_self _ _
      · exact List.mem_cons_of_mem _ (ih h)
    · rw [sweep, if_neg hc] at h
      exact List.mem_cons_of_mem _ (ih h)

theorem sweep_start_ge {le : Int} :
    ∀ {l : List Span}, l.Pairwise SLE → ∀ x ∈ sweep le l, le ≤ (x.start : Int) := by
  intro l
  induction l generalizing le with
  | nil => intro _ x hx; rw [sweep] at hx; exact absurd hx (List.not_mem_nil x)
  | cons a t ih =>
    intro hp x hx
    rcases List.pairwise_cons.mp hp with ⟨ha, ht⟩
    by_cases hc : le ≤ (a.start : Int)
    · rw [sweep, if_pos hc] at hx
      rcases List.mem_cons.mp hx with rfl | hx
      · exact hc
      · have hmem : x ∈ t := mem_sweep hx
        have hax : a.start ≤ x.start := ha _ hmem
        exact le_trans hc (by exact_mod_cast hax)
    · rw [sweep, if_neg hc] at hx
      exact ih ht x hx

theorem sweep_chain {le : Int} :
    ∀ {l : List Span}, l.Pairwise SLE →
      (sweep le l).Pairwise (fun a b => (a.stop : Int) ≤ (b.start : Int)) := by
  intro l
  induction l generalizing le with
  | nil => intro _; rw [sweep]; exact List.Pairwise.nil
  | cons a t ih =>
    intro hp
    rcases List.pairwise_cons.mp hp with ⟨_, ht⟩
    by_cases hc : le ≤ (a.start : Int)
    · rw [sweep, if_pos hc]
      refine List.pairwise_cons.mpr ⟨?_, ih ht⟩
      intro b hb
      exact sweep_start_ge ht b hb
    · rw [sweep, if_neg hc]
      exact ih ht

/-- The overlap-resolution output is pairwise disjoint for *any* candidate
pool: sorted by start, the sweep only accepts a span starting at or after
the previous accepted end. -/
theorem resolve_overlaps_pairwise (l : List Span) :
    (resolve_overlaps l).Pairwise (fun a b => ¬ Overlap a b) := by
  unfold resolve_overlaps
  by_cases he : l.isEmpty
  · simp [he]
  · simp only [he, Bool.false_eq_true, if_false]
    have hchain := @sweep_chain (-1) (isort spanLt l) (pairwise_SLE_isort l)
    refine hchain.imp ?_
    intro a b hab hov
    rcases hov with ⟨k, hk1, hk2, hk3, hk4⟩
    have h1 : (a.stop : Int) ≤ (b.start : Int) := hab
    have h2 : a.stop ≤ b.start := by exact_mod_cast h1
    omega

/-- C3: for every input, the spans returned by
`extract_entities_with_positions` are pairwise non-overlapping — no two
returned spans share a character offset. -/
theorem extract_entities_with_positions_no_overlap (input : PyInput) :
    (extract_entities_with_positions input).Pairwise (fun a b => ¬ Overlap a b) := by
  cases input with
  | nonStr => simp [extract_entities_with_positions]
  | str s =>
    by_cases hs : s = ""
    · simp [extract_entities_with_positions, hs]
    · simp only [extract_entities_with_positions, hs, if_false]
      rw [List.pairwise_map]
      refine (resolve_overlaps_pairwise _).imp ?_
      intro a b hab hov
      exact hab (by simpa [Overlap] using hov)

/-! ## C10 — the two NER entry points agree -/

/-- C10: for every input (non-string and empty included), `extract_entities`
is the element-wise projection of `extract_entities_with_positions` onto
`(entity_type, normalized_text)`. -/
theorem extract_entities_eq_projection (input : PyInput) :
    extract_entities input
      = (extract_entities_with_positions input).map (fun sp => (sp.etype, sp.text)) := by
  cases input with
  | nonStr => rfl
  | str s =>
    by_cases hs : s = ""
    · simp [extract_entities, extract_entities_with_positions, hs]
    · simp only [extract_entities, extract_entities_with_positions, hs, if_false]
      rw [List.map_map]
      rfl

/-! ## Seen-set invariant machinery (for C6 and C7)

Both extractors accumulate `(emitted, seen)` state where an item is appended
only when its key is not in `seen` and the key is then recorded, so emitted
keys are pairwise distinct. -/

/-- The state invariant: emitted triples have pairwise distinct keys, and
every emitted key has been recorded in the seen set. -/
def PushInv {κ : Type} (key : Triple → κ) (st : List Triple × List κ) : Prop :=
  st.1.Pairwise (fun a b => key a ≠ key b) ∧ ∀ t ∈ st.1, key t ∈ st.2

theorem foldl_pres {S A : Type} {P : S → Prop} {f : S → A → S}
    (hf : ∀ s a, P s → P (f s a)) :
    ∀ (l : List A) (s : S), P s → P (l.foldl f s) := by
  intro l
  induction l with
  | nil => intro s hs; exact hs
  | cons a t ih => intro s hs; exact ih _ (hf s a hs)

/-- Appending an item with an unseen key, and recording the key, preserves
the invariant. -/
theorem pushInv_append {κ : Type} (key : Triple → κ)
    {st : List Triple × List κ} {t : Triple}
    (hnew : key t ∉ st.2) (hinv : PushInv key st) :
    PushInv key (st.1 ++ [t], st.2 ++ [key t]) := by
  obtain ⟨hpw, hmem⟩ := hinv
  constructor
  · rw [List.pairwise_append]
    refine ⟨hpw, List.pairwise_singleton _ _, ?_⟩
    intro a ha b hb
    rcases List.mem_singleton.mp hb with rfl
    intro hk
    exact hnew (hk ▸ hmem a ha)
  · intro u hu
    rcases List.mem_append.mp hu with hu | hu
    · exact List.mem_append.mpr (Or.inl (hmem u hu))
    · rcases List.mem_singleton.mp hu with rfl
      exact List.mem_append.mpr (Or.inr (List.mem_singleton.mpr rfl))

theorem pushTriple_inv {st : List Triple × List Triple} {t : Triple}
    (hinv : PushInv tripleKey st) : PushInv tripleKey (pushTriple st t) := by
  unfold pushTriple
  by_cases h : tripleKey t ∈ st.2
  · rwa [if_pos h]
  · rw [if_neg h]
    exact pushInv_append tripleKey h hinv

theorem relRuleStep_inv (text : List Char) (isubj jobj : Nat × Span)
    (st : List Triple × List Triple) (rule : RelRule)
    (hinv : PushInv tripleKey st) :
    PushInv tripleKey (relRuleStep text isubj jobj st rule) := by
  unfold relRuleStep
  split
  · split
    · exact pushTriple_inv hinv
    · exact hinv
  · exact hinv

theorem relObjStep_inv (text : List Char) (isubj : Nat × Span)
    (st : List Triple × List Triple) (jobj : Nat × Span)
    (hinv : PushInv tripleKey st) :
    PushInv tripleKey (relObjStep text isubj st jobj) := by
  unfold relObjStep
  split
  · exact hinv
  · split
    · exact hinv
    · exact foldl_pres (relRuleStep_inv text isubj jobj) relation_patterns st hinv

/-- C6 amended: `extract_relations` emits each dedup key — lower-cased
subject, predicate, lower-cased object — at most once per call: the output
triples have pairwise distinct `tripleKey`s. -/
theorem extract_relations_keys_distinct (input : PyInput) :
    (extract_relations input).Pairwise (fun a b => tripleKey a ≠ tripleKey b) := by
  cases input with
  | nonStr => exact List.Pairwise.nil
  | str s =>
    simp only [extract_relations]
    by_cases hs : s = ""
    · rw [if_pos hs]; exact List.Pairwise.nil
    · rw [if_neg hs]
      by_cases hlen : (extract_entities_with_positions (.str s)).length < 2
      · rw [if_pos hlen]; exact List.Pairwise.nil
      · rw [if_neg hlen]
        have hinv : PushInv tripleKey (([], []) : List Triple × List Triple) :=
          ⟨List.Pairwise.nil, by intro t ht; exact absurd ht (List.not_mem_nil t)⟩
        exact (foldl_pres (fun st isubj h =>
          foldl_pres (relObjStep_inv s.data isubj) _ st h) _ _ hinv).1

theorem simpleStep_inv (ie : Nat × (String × String))
    (st : List Triple × List (String × String)) (je : Nat × (String × String))
    (hinv : PushInv (fun t => pairKey t.1 t.2.2) st) :
    PushInv (fun t => pairKey t.1 t.2.2) (simpleStep ie st je) := by
  unfold simpleStep
  split
  · exact hinv
  · split
    · exact hinv
    · rename_i hseen
      split
      · exact pushInv_append (fun t => pairKey t.1 t.2.2) hseen hinv
      · exact hinv

/-- C7 amended: `extract_simple_triples` skips a pair exactly when the
*index-ordered* lower-cased text pair was already used, so the emitted
triples have pairwise distinct ordered `(subject.lower(), object.lower())`
pairs (the same two texts in swapped order are *not* deduplicated). -/
theorem extract_simple_triples_ordered_pairs_distinct (input : PyInput) :
    (extract_simple_triples input).Pairwise
      (fun a b => pairKey a.1 a.2.2 ≠ pairKey b.1 b.2.2) := by
  cases input with
  | nonStr => exact List.Pairwise.nil
  | str s =>
    simp only [extract_simple_triples]
    by_cases hs : s = ""
    · rw [if_pos hs]; exact List.Pairwise.nil
    · rw [if_neg hs]
      by_cases hlen : (extract_entities (.str s)).length < 2
      · rw [if_pos hlen]; exact List.Pairwise.nil
      · rw [if_neg hlen]
        have hinv : PushInv (fun t => pairKey t.1 t.2.2)
            (([], []) : List Triple × List (String × String)) :=
          ⟨List.Pairwise.nil, by intro t ht; exact absurd ht (List.not_mem_nil t)⟩
        exact (foldl_pres (fun st ie h =>
          foldl_pres (simpleStep_inv ie) _ st h) _ _ hinv).1

/-! ## C8 — dictionary matching respects word boundaries -/

theorem dictScan_bounds (lower ent : List Char) :
    ∀ (fuel start : Nat) (pe : Nat × Nat), pe ∈ dictScan lower ent start fuel →
      (pe.1 = 0 ∨ alnumAt lower (pe.1 - 1) = false) ∧ alnumAt lower pe.2 = false := by
  intro fuel
  induction fuel with
  | zero =>
    intro start pe h
    rw [dictScan] at h
    exact absurd h (List.not_mem_nil pe)
  | succ fuel ih =>
    intro start pe h
    rw [dictScan] at h
    cases hf : findFrom lower ent start with
    | none => rw [hf] at h; exact absurd h (List.not_mem_nil pe)
    | some pos =>
      rw [hf] at h
      dsimp only at h
      by_cases c1 : (pos > 0 && alnumAt lower (pos - 1)) = true
      · rw [if_pos c1] at h
        exact ih _ _ h
      · rw [if_neg c1] at h
        by_cases c2 : alnumAt lower (pos + ent.length) = true
        · rw [if_pos c2] at h
          exact ih _ _ h
        · rw [if_neg c2] at h
          rcases List.mem_cons.mp h with rfl | h
          · refine ⟨?_, Bool.eq_false_iff.mpr c2⟩
            rcases Nat.eq_zero_or_pos pos with h0 | hpos
            · exact Or.inl h0
            · right
              cases hb : alnumAt lower (pos - 1) with
              | false => rfl
              | true => exact absurd (by simp [hpos, hb]) c1
          · exact ih _ _ h

/-- C8: a dictionary occurrence is accepted only when the characters
immediately before and after it are absent or non-alphanumeric; hence the
term `us` inside `trust` is not matched, while `US` in `US tariffs` is. -/
theorem match_dictionary_word_boundary :
    (∀ text : List Char, ∀ sp ∈ match_dictionary text,
        (sp.start = 0 ∨ alnumAt (text.map asciiLower) (sp.start - 1) = false) ∧
        alnumAt (text.map asciiLower) sp.stop = false) ∧
    match_dictionary "trust".data = [] ∧
    (⟨"LOCATION", "US", 0, 2⟩ : Span) ∈ match_dictionary "US tariffs".data := by
  refine ⟨?_, rfl, ?_⟩
  · intro text sp hsp
    simp only [match_dictionary, List.mem_flatMap, List.mem_map] at hsp
    obtain ⟨tyE, _, ent, _, pe, hpe, rfl⟩ := hsp
    exact dictScan_bounds (text.map asciiLower) ent.data _ _ pe hpe
  · rw [show match_dictionary "US tariffs".data
        = [⟨"LOCATION", "US", 0, 2⟩] from rfl]
    exact List.mem_singleton.mpr rfl

theorem match_dictionary_word_boundary_witness :
    (⟨"LOCATION", "US", 0, 2⟩ : Span) ∈ match_dictionary "US tariffs".data ∧
    (((⟨"LOCATION", "US", 0, 2⟩ : Span).start = 0 ∨
        alnumAt ("US tariffs".data.map asciiLower) ((⟨"LOCATION", "US", 0, 2⟩ : Span).start - 1) = false) ∧
      alnumAt ("US tariffs".data.map asciiLower) (⟨"LOCATION", "US", 0, 2⟩ : Span).stop = false) :=
  ⟨match_dictionary_word_boundary.2.2,
    match_dictionary_word_boundary.1 "US tariffs".data _ match_dictionary_word_boundary.2.2⟩

/-! ## C5 — the tariff-announcement example -/

/-- C5: on `"Trump announces 25% tariff on Chinese imports"`,
`extract_relations` yields exactly the triple with subject `Trump` and
predicate `ANNOUNCES`, whose object is the text of the `TARIFF_RATE` span
returned by the recognizer and contains `25%`. -/
theorem extract_relations_announce_tariff :
    extract_relations (.str "Trump announces 25% tariff on Chinese imports")
      = [("Trump", "ANNOUNCES", "25% tariff")] ∧
    (⟨"TARIFF_RATE", "25% tariff", 16, 26⟩ : Span)
      ∈ extract_entities_with_positions (.str "Trump announces 25% tariff on Chinese imports") ∧
    containsSub "25% tariff".data "25%".data = true := by
  refine ⟨rfl, ?_, rfl⟩
  rw [show extract_entities_with_positions (.str "Trump announces 25% tariff on Chinese imports")
      = [⟨"PERSON", "Trump", 0, 5⟩, ⟨"TARIFF_RATE", "25% tariff", 16, 26⟩] from rfl]
  exact List.mem_cons.mpr (Or.inr (List.mem_singleton.mpr rfl))

/-! ## C6 counterexample — a (subject, predicate) pair can repeat -/

/-- C6 counterexample: on `"Trump announces 25% and 30%"` the pair
`("Trump", ANNOUNCES)` is emitted twice (with objects `25%` and `30%`),
because the dedup key also contains the object. -/
theorem extract_relations_subject_predicate_repeats :
    ¬ ((extract_relations (.str "Trump announces 25% and 30%")).Pairwise
        (fun a b => ¬ (a.1 = b.1 ∧ a.2.1 = b.2.1))) := by
  intro h
  rw [show extract_relations (.str "Trump announces 25% and 30%")
      = [("Trump", "ANNOUNCES", "25%"), ("Trump", "ANNOUNCES", "30%")] from rfl] at h
  rcases List.pairwise_cons.mp h with ⟨hh, _⟩
  exact hh ("Trump", "ANNOUNCES", "30%") (List.mem_singleton.mpr rfl) ⟨rfl, rfl⟩

/-! ## C7 counterexample — the skip key is ordered, not unordered -/

/-- Two triples relate the same unordered, case-insensitive pair of entity
texts. -/
def SameUnorderedPair (a b : Triple) : Prop :=
  (pyLower a.1 = pyLower b.1 ∧ pyLower a.2.2 = pyLower b.2.2) ∨
  (pyLower a.1 = pyLower b.2.2 ∧ pyLower a.2.2 = pyLower b.1)

/-- C7 counterexample: on `"us trump us"` the unordered text pair
`{us, trump}` produces two triples — `(Us, MENTIONED_WITH, Trump)` and later
`(Trump, ASSOCIATED_WITH, Us)` — because the seen-key is the *ordered*
`(text1.lower(), text2.lower())` tuple, so the swapped pair is not skipped. -/
theorem extract_simple_triples_unordered_pair_repeats :
    ¬ ((extract_simple_triples (.str "us trump us")).Pairwise
        (fun a b => ¬ SameUnorderedPair a b)) := by
  intro h
  rw [show extract_simple_triples (.str "us trump us")
      = [("Us", "MENTIONED_WITH", "Trump"), ("Us", "RELATED_TO", "Us"),
         ("Trump", "ASSOCIATED_WITH", "Us")] from rfl] at h
  rcases List.pairwise_cons.mp h with ⟨hh, _⟩
  refine hh ("Trump", "ASSOCIATED_WITH", "Us") ?_ (Or.inr ⟨rfl, rfl⟩)
  exact List.mem_cons.mpr (Or.inr (List.mem_singleton.mpr rfl))

end GA
